import Mathlib

/-!
Shallow embedding of `src/handle.rs` of the `winmem` crate: process handle
acquisition (`impl TryFrom<u32> for Handle`), handle/snapshot destruction
(`impl Drop`), the snapshot flag bit-set (`HandleSnapshotFlag`), the module
iterator (`HandleSnapshotModuleIter::next`) and the memory-region iterator
(`HandleMemoryBasicInformationIter::next`).

OS calls (`OpenProcess`, `CloseHandle`, `Module32FirstW`, `Module32NextW`,
`VirtualQueryEx`) are modelled as explicit oracles passed to the embedded
functions; machine pointers/handles are `Int` (the `windows` crate's
`HANDLE(isize)`), sizes and addresses are `Nat`.
-/

namespace Winmem

/-- `std::io::ErrorKind`: the source only ever constructs `ErrorKind::Other`. -/
inductive ErrorKind where
  | other
  deriving DecidableEq, Repr

/-- `HANDLE::is_invalid` from the `windows` crate: the handle value is the
null sentinel `0` or `INVALID_HANDLE_VALUE = -1`. -/
def hIsInvalid (h : Int) : Bool :=
  h == 0 || h == -1

/-- The `Handle` struct of `src/handle.rs`: a raw OS handle value and the
process id it was opened for. -/
structure Handle where
  raw : Int
  process_id : Nat
  deriving DecidableEq, Repr

/-- `Handle::get_process_id`: returns the stored `process_id` field. -/
def Handle.get_process_id (h : Handle) : Nat :=
  h.process_id

/-- The `HandleSnapshot` struct of `src/handle.rs`. -/
structure HandleSnapshot where
  raw : Int
  process_id : Nat
  deriving DecidableEq, Repr

/-- `HandleSnapshot::get_process_id`. -/
def HandleSnapshot.get_process_id (s : HandleSnapshot) : Nat :=
  s.process_id

/-! ## Snapshot flag bit-set (`bitflags!` block, lines 22-33) -/

/-- `HandleSnapshotFlag::Inherit = 0x80000000`. -/
def Inherit : Nat := 0x80000000

/-- `HandleSnapshotFlag::SnapHeapList = 0x1`. -/
def SnapHeapList : Nat := 0x1

/-- `HandleSnapshotFlag::SnapModule = 0x8`. -/
def SnapModule : Nat := 0x8

/-- `HandleSnapshotFlag::SnapModule32 = 0x10`. -/
def SnapModule32 : Nat := 0x10

/-- `HandleSnapshotFlag::SnapProcess = 0x2`. -/
def SnapProcess : Nat := 0x2

/-- `HandleSnapshotFlag::SnapThread = 0x4`. -/
def SnapThread : Nat := 0x4

/-- `HandleSnapshotFlag::SnapAll`, written exactly as the source writes it:
`Self::Inherit.bits() | Self::SnapHeapList.bits() | Self::SnapModule.bits()
| Self::SnapModule32.bits() | Self::SnapProcess.bits() | Self::SnapThread.bits()`. -/
def SnapAll : Nat :=
  Inherit ||| SnapHeapList ||| SnapModule ||| SnapModule32 ||| SnapProcess ||| SnapThread

/-! ## Destruction (`impl Drop for Handle`, lines 86-92, and
`impl Drop for HandleSnapshot`, lines 152-158) -/

/-- Result of the `CloseHandle` OS call: `Result<(), Error>` in the
`windows` crate. -/
inductive CloseResult where
  | ok
  | fail
  deriving DecidableEq, Repr

/-- Observable effect of a destructor run: whether `CloseHandle` was invoked,
and whether the destructor panicked. -/
structure DropEffect where
  closeCalled : Bool
  panicked : Bool
  deriving DecidableEq, Repr

/-- `impl Drop for Handle` (lines 86-92): if the raw handle is not invalid,
call `CloseHandle` and discard its result (`let _ = ...`); otherwise do
nothing.  The body contains no panicking construct, so `panicked` is `false`
on every path, whatever `CloseHandle` returns. -/
def handleDrop (raw : Int) (res : CloseResult) : DropEffect :=
  if hIsInvalid raw then
    { closeCalled := false, panicked := false }
  else
    match res with
    | CloseResult.ok => { closeCalled := true, panicked := false }
    | CloseResult.fail => { closeCalled := true, panicked := false }

/-- `impl Drop for HandleSnapshot` (lines 152-158): same body as
`impl Drop for Handle`, on the snapshot's raw handle. -/
def snapshotDrop (raw : Int) (res : CloseResult) : DropEffect :=
  if hIsInvalid raw then
    { closeCalled := false, panicked := false }
  else
    match res with
    | CloseResult.ok => { closeCalled := true, panicked := false }
    | CloseResult.fail => { closeCalled := true, panicked := false }

/-! ## Handle acquisition (`impl TryFrom<u32> for Handle`, lines 94-121) -/

/-- Oracle for the `OpenProcess` OS call: given the requested access-rights
mask and the process id, the OS either returns a raw handle value or an
OS-level error (`Err` from the `windows` crate). -/
def OpenOracle : Type :=
  Nat → Nat → Except Unit Int

/-- `impl TryFrom<u32> for Handle` (lines 94-121), line by line:
first `OpenProcess(PROCESS_ACCESS_RIGHTS(0xFFFF), BOOL(0), value)` with
`.map_err(|_| ErrorKind::Other)?` — an OS-level `Err` propagates
immediately; if the returned handle `is_invalid`, a second
`OpenProcess(PROCESS_ACCESS_RIGHTS(0x10 | 0x20), ...)` is attempted, again
with `?` on `Err`; if the resulting handle is still invalid the function
returns `Err(ErrorKind::Other)`, otherwise it returns the `Handle`. -/
def handleTryFrom (os : OpenOracle) (value : Nat) : Except ErrorKind Handle :=
  match os 0xFFFF value with
  | Except.error _ => Except.error ErrorKind.other
  | Except.ok h0 =>
    match (if hIsInvalid h0 then os (0x10 ||| 0x20) value else Except.ok h0) with
    | Except.error _ => Except.error ErrorKind.other
    | Except.ok h =>
      if hIsInvalid h then Except.error ErrorKind.other
      else Except.ok { raw := h, process_id := value }

/-- `impl Default for Handle` (lines 72-76):
`Handle::try_from(GetCurrentProcessId()).unwrap()`.  `currentPid` models the
`GetCurrentProcessId()` call; the `unwrap()` panic on acquisition failure is
modelled by `none` (no failure value is ever returned to the caller). -/
def handleDefault (os : OpenOracle) (currentPid : Nat) : Option Handle :=
  match handleTryFrom os currentPid with
  | Except.ok h => some h
  | Except.error _ => none

/-! ## Module iterator (`HandleSnapshotModuleIter`, lines 160-204) -/

/-- A decoded module descriptor (`Module::from(MODULEENTRY32W)`); its
internal decoding is out of scope, so it is an opaque tag. -/
structure Module where
  entry : Nat
  deriving DecidableEq, Repr

/-- Which ToolHelp enumeration call a pull issues. -/
inductive OsCall where
  | first
  | next
  deriving DecidableEq, Repr

/-- The call `HandleSnapshotModuleIter::next` issues, as a function of the
`is_first` flag at entry: `Module32FirstW` when `is_first` holds,
`Module32NextW` otherwise (lines 183 and 195). -/
def moduleIterCall (is_first : Bool) : OsCall :=
  if is_first then OsCall.first else OsCall.next

/-- One pull of `HandleSnapshotModuleIter::next` (lines 169-203), given the
OS response `resp` to the call it issues (`some` = `Ok(entry)` decoded to a
`Module`, `none` = `Err`).  Returns the yielded element and the new
`is_first` flag:
* `is_first` true, `Module32FirstW` ok: set `is_first = false`, yield;
* `is_first` true, `Module32FirstW` err: return `None` — `is_first` is not
  written, so it stays true;
* `is_first` false: `Module32NextW`, yield on ok, `None` on err, `is_first`
  stays false. -/
def moduleIterStep (resp : Option Module) (is_first : Bool) :
    Option Module × Bool :=
  if is_first then
    match resp with
    | some m => (some m, false)
    | none => (none, true)
  else
    (resp, false)

/-- A run of pulls on `HandleSnapshotModuleIter`: `resps` gives, per pull,
the OS response to whichever call that pull issues.  Returns the list of
yielded values (one per pull) and the final `is_first` flag. -/
def moduleIterRun (resps : List (Option Module)) (is_first : Bool) :
    List (Option Module) × Bool :=
  match resps with
  | [] => ([], is_first)
  | r :: rest =>
    let s := moduleIterStep r is_first
    let t := moduleIterRun rest s.2
    (s.1 :: t.1, t.2)

/-! ## Memory-region iterator (`HandleMemoryBasicInformationIter`,
lines 206-247) -/

/-- The part of a decoded `MemoryBasicInformation` descriptor the iterator
uses: the reported base address and the reported region size
(`get_region_size`). -/
structure Mbi where
  base : Nat
  region_size : Nat
  deriving DecidableEq, Repr

/-- One pull of `HandleMemoryBasicInformationIter::next` (lines 215-246),
over an arbitrary `VirtualQueryEx` oracle `q` (argument `none` is the
`NULL` pointer the code passes when `current_address` is `None`; `none`
result is the `n == 0` "no information" return).  On success the cursor is
set to `Some(mbi.get_region_size() + self.current_address.unwrap_or(0))`
(line 240); on failure the cursor field is not written. -/
def mbiNext (q : Option Nat → Option Mbi) (cur : Option Nat) :
    Option Mbi × Option Nat :=
  match q cur with
  | some mbi => (some mbi, some (mbi.region_size + cur.getD 0))
  | none => (none, cur)

/-- Driving `HandleMemoryBasicInformationIter` for up to `fuel` pulls,
collecting the yielded descriptors; the run stops early at the first pull
that yields nothing (the Rust `Iterator` contract consumers rely on). -/
def mbiRun (q : Option Nat → Option Mbi) (cur : Option Nat) (fuel : Nat) :
    List Mbi :=
  match fuel with
  | 0 => []
  | Nat.succ fuel' =>
    match mbiNext q cur with
    | (some mbi, cur') => mbi :: mbiRun q cur' fuel'
    | (none, _) => []

/-- Model of the OS virtual address space for `VirtualQueryEx`: a list of
consecutive region sizes tiling the space from address `0`; `memQuery base
sizes a` answers a query at address `a` against the regions laid out from
`base`.  Per the `VirtualQueryEx` contract, the returned `BaseAddress` is
the query address rounded down to the allocation granularity (granularity
`1` here, so the query address itself) and `RegionSize` is the number of
bytes from there to the end of the containing region; a query past the end
of the space returns no information (`n == 0`). -/
def memQuery (base : Nat) : List Nat → Nat → Option Mbi
  | [], _ => none
  | s :: rest, a =>
    if a < base + s then some { base := a, region_size := base + s - a }
    else memQuery (base + s) rest a

/-- The full `VirtualQueryEx` oracle over a memory map `mm`: a `NULL`
query address (`none`) is a query at address `0`. -/
def virtualQueryEx (mm : List Nat) (addr : Option Nat) : Option Mbi :=
  memQuery 0 mm (addr.getD 0)

/-- The region list a memory map `mm` denotes, laid out from `base`:
descriptor `i` has base `base + s_0 + ... + s_(i-1)` and size `s_i`. -/
def regionsFrom (base : Nat) : List Nat → List Mbi
  | [] => []
  | s :: rest => { base := base, region_size := s } :: regionsFrom (base + s) rest

/-- Adjacent gap-free, non-overlapping layout: each descriptor's successor
starts exactly at its end. -/
def gapFree : List Mbi → Prop
  | a :: b :: rest => b.base = a.base + a.region_size ∧ gapFree (b :: rest)
  | _ => True

/-- An OS behaviour under which the first, all-access `OpenProcess` attempt
fails with an OS-level error while the reduced request would return the
valid handle value `5`. -/
def osFirstAttemptErr : OpenOracle := fun access _ =>
  if access == 0xFFFF then Except.error () else Except.ok 5

/-- An OS behaviour under which every `OpenProcess` attempt returns the
valid handle value `5`. -/
def osAlwaysOk : OpenOracle := fun _ _ => Except.ok 5

/-- An OS behaviour under which every `OpenProcess` attempt fails with an
OS-level error. -/
def osAlwaysErr : OpenOracle := fun _ _ => Except.error ()

/-! ## Helper lemmas -/

lemma memQuery_skip (s : Nat) (rest : List Nat) (base a : Nat)
    (h : base + s ≤ a) :
    memQuery base (s :: rest) a = memQuery (base + s) rest a := by
  simp [memQuery, Nat.not_lt.mpr h]

lemma memQuery_start (s : Nat) (rest : List Nat) (base : Nat) (hs : 0 < s) :
    memQuery base (s :: rest) base =
      some { base := base, region_size := s } := by
  simp [memQuery, Nat.lt_add_of_pos_right hs, Nat.add_sub_cancel_left]

lemma mbiRun_eq_regionsFrom (q : Option Nat → Option Mbi) :
    ∀ (rest : List Nat) (b fuel : Nat),
      (∀ s ∈ rest, 0 < s) →
      rest.length ≤ fuel →
      (∀ a, b ≤ a → q (some a) = memQuery b rest a) →
      mbiRun q (some b) fuel = regionsFrom b rest := by
  intro rest
  induction rest with
  | nil =>
    intro b fuel _ _ hq
    have h0 : q (some b) = none := by
      simpa [memQuery] using hq b (Nat.le_refl b)
    cases fuel with
    | zero => simp [mbiRun, regionsFrom]
    | succ n => simp [mbiRun, mbiNext, h0, regionsFrom]
  | cons s rest ih =>
    intro b fuel hpos hfuel hq
    cases fuel with
    | zero => exact absurd hfuel (by simp)
    | succ n =>
      have hs : 0 < s := hpos s (by simp)
      have hqb : q (some b) = some { base := b, region_size := s } := by
        rw [hq b (Nat.le_refl b), memQuery_start s rest b hs]
      have hstep : mbiNext q (some b) =
          (some { base := b, region_size := s }, some (s + b)) := by
        simp [mbiNext, hqb]
      have htail : mbiRun q (some (s + b)) n = regionsFrom (b + s) rest := by
        rw [Nat.add_comm s b]
        apply ih (b + s) n (fun t ht => hpos t (by simp [ht]))
          (Nat.le_of_succ_le_succ hfuel)
        intro a ha
        rw [hq a (le_trans (Nat.le_add_right b s) ha),
          memQuery_skip s rest b a ha]
      simp [mbiRun, hstep, regionsFrom, htail]

lemma mbiRun_none_eq (mm : List Nat) (fuel : Nat)
    (hpos : ∀ s ∈ mm, 0 < s) (hfuel : mm.length ≤ fuel) :
    mbiRun (virtualQueryEx mm) none fuel = regionsFrom 0 mm := by
  cases mm with
  | nil =>
    have h0 : virtualQueryEx [] none = none := rfl
    cases fuel with
    | zero => simp [mbiRun, regionsFrom]
    | succ n => simp [mbiRun, mbiNext, h0, regionsFrom]
  | cons s rest =>
    cases fuel with
    | zero => exact absurd hfuel (by simp)
    | succ n =>
      have hs : 0 < s := hpos s (by simp)
      have hq0 : virtualQueryEx (s :: rest) none =
          some { base := 0, region_size := s } := by
        simpa [virtualQueryEx] using memQuery_start s rest 0 hs
      have hstep : mbiNext (virtualQueryEx (s :: rest)) none =
          (some { base := 0, region_size := s }, some s) := by
        simp [mbiNext, hq0]
      have htail : mbiRun (virtualQueryEx (s :: rest)) (some s) n =
          regionsFrom s rest := by
        apply mbiRun_eq_regionsFrom (virtualQueryEx (s :: rest)) rest s n
          (fun t ht => hpos t (by simp [ht])) (Nat.le_of_succ_le_succ hfuel)
        intro a ha
        show memQuery 0 (s :: rest) a = memQuery s rest a
        have hsk := memQuery_skip s rest 0 a (by simpa using ha)
        simpa using hsk
      simp [mbiRun, hstep, regionsFrom, Nat.zero_add]
      exact htail

lemma regionsFrom_mem_le (rest : List Nat) :
    ∀ (base : Nat) (m : Mbi), m ∈ regionsFrom base rest → base ≤ m.base := by
  induction rest with
  | nil => intro base m hm; simp [regionsFrom] at hm
  | cons s rest ih =>
    intro base m hm
    simp only [regionsFrom, List.mem_cons] at hm
    rcases hm with rfl | hm
    · exact Nat.le_refl _
    · exact le_trans (Nat.le_add_right base s) (ih (base + s) m hm)

lemma regionsFrom_pairwise (rest : List Nat) :
    ∀ base, (∀ s ∈ rest, 0 < s) →
      List.Pairwise (fun x y : Mbi => x.base < y.base) (regionsFrom base rest) := by
  induction rest with
  | nil => intro base _; simp [regionsFrom]
  | cons s rest ih =>
    intro base hpos
    have hs : 0 < s := hpos s (by simp)
    simp only [regionsFrom, List.pairwise_cons]
    refine ⟨fun m hm => ?_, ih (base + s) (fun t ht => hpos t (by simp [ht]))⟩
    exact lt_of_lt_of_le (Nat.lt_add_of_pos_right hs)
      (regionsFrom_mem_le rest (base + s) m hm)

lemma regionsFrom_gapFree (rest : List Nat) :
    ∀ base, gapFree (regionsFrom base rest) := by
  induction rest with
  | nil => intro base; simp [regionsFrom, gapFree]
  | cons s rest ih =>
    intro base
    cases rest with
    | nil => simp [regionsFrom, gapFree]
    | cons s2 rest2 =>
      simp only [regionsFrom, gapFree]
      exact ⟨trivial, ih (base + s)⟩

lemma regionsFrom_length (rest : List Nat) :
    ∀ base, (regionsFrom base rest).length = rest.length := by
  induction rest with
  | nil => intro base; rfl
  | cons s rest ih => intro base; simp [regionsFrom, ih]

lemma handleTryFrom_ok_pid (os : OpenOracle) (pid : Nat) (h : Handle)
    (hok : handleTryFrom os pid = Except.ok h) : h.process_id = pid := by
  unfold handleTryFrom at hok
  split at hok
  · simp at hok
  · split at hok
    · simp at hok
    · split at hok
      · simp at hok
      · cases hok
        rfl

/-! ## Theorems for the claims -/

/-- **C1.** For every run of the memory-region iterator over a process whose
memory map is a tiling of the address space by positive-size regions, the
regions it yields have strictly increasing base addresses, are
non-overlapping and gap-free (each successor's base is exactly the previous
base plus the previous reported size, which is how the next query's start
address is computed), and the sequence is finite: once the pull count
reaches the number of regions the run is already complete — its value no
longer depends on the fuel — and its length equals the number of regions. -/
theorem mbiIter_increasing_gapfree_finite (mm : List Nat) (fuel : Nat)
    (hpos : ∀ s ∈ mm, 0 < s) (hfuel : mm.length ≤ fuel) :
    mbiRun (virtualQueryEx mm) none fuel = regionsFrom 0 mm ∧
    List.Pairwise (fun x y : Mbi => x.base < y.base)
      (mbiRun (virtualQueryEx mm) none fuel) ∧
    gapFree (mbiRun (virtualQueryEx mm) none fuel) ∧
    (mbiRun (virtualQueryEx mm) none fuel).length = mm.length := by
  have he := mbiRun_none_eq mm fuel hpos hfuel
  refine ⟨he, ?_, ?_, ?_⟩ <;> rw [he]
  · exact regionsFrom_pairwise mm 0 hpos
  · exact regionsFrom_gapFree mm 0
  · exact regionsFrom_length mm 0

/-- Witness for C1 at the concrete memory map `[4096, 8192]` with fuel 2. -/
theorem mbiIter_increasing_gapfree_finite_witness :
    mbiRun (virtualQueryEx [4096, 8192]) none 2 = regionsFrom 0 [4096, 8192] ∧
    List.Pairwise (fun x y : Mbi => x.base < y.base)
      (mbiRun (virtualQueryEx [4096, 8192]) none 2) ∧
    gapFree (mbiRun (virtualQueryEx [4096, 8192]) none 2) ∧
    (mbiRun (virtualQueryEx [4096, 8192]) none 2).length =
      ([4096, 8192] : List Nat).length :=
  mbiIter_increasing_gapfree_finite [4096, 8192] 2 (by decide) (by decide)

/-- **C2, counterexample.** The claim says an OS-level rejection of the
all-access attempt triggers the reduced-permission retry.  Under
`osFirstAttemptErr` the first attempt returns an OS-level error and the
reduced request would return the valid handle `5`, yet `handleTryFrom`
fails without retrying: the `map_err(..)?` on the first `OpenProcess`
propagates the error immediately (line 101-102 of `handle.rs`). -/
theorem tryFrom_no_retry_on_os_error_cex :
    handleTryFrom osFirstAttemptErr 7 = Except.error ErrorKind.other ∧
    osFirstAttemptErr (0x10 ||| 0x20) 7 = Except.ok 5 ∧
    hIsInvalid 5 = false :=
  ⟨rfl, rfl, rfl⟩

/-- **C2, amended.** Acquisition attempts the all-access (`0xFFFF`) open
first; an OS-level error there fails the operation immediately, with no
retry; only when that attempt succeeds but returns an invalid handle does
it retry once with the reduced request (`0x10 | 0x20`); if the retry
errors, or either path ends with an invalid handle, the operation fails
and no handle is returned. -/
theorem tryFrom_fallback_policy (os : OpenOracle) (pid : Nat) :
    (∀ e, os 0xFFFF pid = Except.error e →
       handleTryFrom os pid = Except.error ErrorKind.other) ∧
    (∀ h, os 0xFFFF pid = Except.ok h → hIsInvalid h = false →
       handleTryFrom os pid = Except.ok { raw := h, process_id := pid }) ∧
    (∀ h e, os 0xFFFF pid = Except.ok h → hIsInvalid h = true →
       os (0x10 ||| 0x20) pid = Except.error e →
       handleTryFrom os pid = Except.error ErrorKind.other) ∧
    (∀ h h2, os 0xFFFF pid = Except.ok h → hIsInvalid h = true →
       os (0x10 ||| 0x20) pid = Except.ok h2 → hIsInvalid h2 = false →
       handleTryFrom os pid = Except.ok { raw := h2, process_id := pid }) ∧
    (∀ h h2, os 0xFFFF pid = Except.ok h → hIsInvalid h = true →
       os (0x10 ||| 0x20) pid = Except.ok h2 → hIsInvalid h2 = true →
       handleTryFrom os pid = Except.error ErrorKind.other) := by
  refine ⟨?_, ?_, ?_, ?_, ?_⟩
  · intro e he
    unfold handleTryFrom
    rw [he]
  · intro h hh hv
    unfold handleTryFrom
    rw [hh]
    simp [hv]
  · intro h e hh hv he
    unfold handleTryFrom
    rw [hh]
    simp only [hv, if_true]
    rw [he]
  · intro h h2 hh hv h2h hv2
    unfold handleTryFrom
    rw [hh]
    simp only [hv, if_true]
    rw [h2h]
    simp [hv2]
  · intro h h2 hh hv h2h hv2
    unfold handleTryFrom
    rw [hh]
    simp only [hv, if_true]
    rw [h2h]
    simp [hv2]

/-- Witness for C2's amended theorem: under `osAlwaysOk` the first attempt
returns the valid handle `5` and acquisition succeeds with it. -/
theorem tryFrom_fallback_policy_witness :
    handleTryFrom osAlwaysOk 9 = Except.ok { raw := 5, process_id := 9 } :=
  (tryFrom_fallback_policy osAlwaysOk 9).2.1 5 rfl rfl

/-- **C3, counterexample.** The claim says an OS-level enumeration error at
any step moves the iterator to a terminal exhausted state that yields no
further elements.  Run one: the first pull's query errors (yields nothing),
yet the second pull yields a module.  Run two: enumeration has started
(`is_first = false`), the second pull's query errors, yet the third pull
yields a module.  So an error never puts the iterator in a terminal state:
the `next` body only reacts to the current query's result. -/
theorem moduleIter_error_terminal_cex :
    (moduleIterRun [none, some { entry := 1 }] true).1 =
      [none, some { entry := 1 }] ∧
    (moduleIterRun [some { entry := 1 }, none, some { entry := 2 }] true).1 =
      [some { entry := 1 }, none, some { entry := 2 }] :=
  ⟨rfl, rfl⟩

/-- **C3, amended.** An OS-level enumeration error on a pull yields no
element for that pull and leaves the iterator state unchanged (there is no
distinct terminal state); consequently, when every query keeps reporting
failure — the OS protocol's single "no more items" signal past the end —
every subsequent pull keeps returning "no more elements" without erroring
or restarting; and once enumeration has started (`is_first = false`), the
flag never becomes true again, so the "first module" query is never
re-issued. -/
theorem moduleIter_error_not_restarting :
    (∀ st, moduleIterStep none st = (none, st)) ∧
    (∀ resps st, (∀ r ∈ resps, r = (none : Option Module)) →
       (moduleIterRun resps st).1 = resps.map (fun _ => none) ∧
       (moduleIterRun resps st).2 = st) ∧
    (∀ r, (moduleIterStep r false).2 = false) := by
  refine ⟨?_, ?_, ?_⟩
  · intro st
    cases st <;> rfl
  · intro resps
    induction resps with
    | nil => intro st _; exact ⟨rfl, rfl⟩
    | cons r rest ih =>
      intro st hall
      have hr : r = none := hall r (by simp)
      subst hr
      have hstep : moduleIterStep none st = (none, st) := by cases st <;> rfl
      have ihr := ih st (fun x hx => hall x (by simp [hx]))
      simp [moduleIterRun, hstep, ihr.1, ihr.2]
  · intro r
    cases r <;> rfl

/-- Witness for C3's amended theorem: two pulls past the end keep yielding
"no more elements" and leave the started iterator started. -/
theorem moduleIter_error_not_restarting_witness :
    (moduleIterRun [none, none] false).1 =
      ([none, none] : List (Option Module)).map (fun _ => none) ∧
    (moduleIterRun [none, none] false).2 = false :=
  moduleIter_error_not_restarting.2.1 [none, none] false (by decide)

/-- **C4.** Both destructors (`Drop for Handle`, `Drop for HandleSnapshot`)
invoke `CloseHandle` if and only if the raw handle value is not the invalid
sentinel; a drop on an invalid sentinel makes no close call (no
double-close); and the destructor never panics and its behaviour does not
depend on the close call's result, which is discarded. -/
theorem drop_closes_iff_valid (raw : Int) (res : CloseResult) :
    ((handleDrop raw res).closeCalled = true ↔ hIsInvalid raw = false) ∧
    (handleDrop raw res).panicked = false ∧
    handleDrop raw res = handleDrop raw CloseResult.ok ∧
    ((snapshotDrop raw res).closeCalled = true ↔ hIsInvalid raw = false) ∧
    (snapshotDrop raw res).panicked = false ∧
    snapshotDrop raw res = snapshotDrop raw CloseResult.ok := by
  cases res <;> by_cases h : hIsInvalid raw <;>
    simp [handleDrop, snapshotDrop, h]

/-- **C5.** A pull of the memory-region iterator queries the OS at the
cursor (`VirtualQueryEx` receives the cursor, a `NULL`/`none` cursor
meaning the start of the address space, address `0`); on success it yields
the decoded descriptor and sets the cursor to region size plus the previous
cursor value (`0` when empty); on failure it yields nothing and the run
ends — no error value exists to surface. -/
theorem mbiNext_transition (q : Option Nat → Option Mbi) (cur : Option Nat) :
    (∀ mbi, q cur = some mbi →
       mbiNext q cur = (some mbi, some (mbi.region_size + cur.getD 0))) ∧
    (q cur = none → mbiNext q cur = (none, cur) ∧
       ∀ fuel, mbiRun q cur fuel = []) ∧
    (∀ mm, virtualQueryEx mm cur = memQuery 0 mm (cur.getD 0)) := by
  refine ⟨?_, ?_, fun mm => rfl⟩
  · intro mbi h
    simp [mbiNext, h]
  · intro h
    refine ⟨by simp [mbiNext, h], fun fuel => ?_⟩
    cases fuel <;> simp [mbiRun, mbiNext, h]

/-- Witness for C5 at the one-region map `[4]` and the empty map. -/
theorem mbiNext_transition_witness :
    mbiNext (virtualQueryEx [4]) none =
      (some { base := 0, region_size := 4 },
       some (Mbi.region_size { base := 0, region_size := 4 } +
         Option.getD none 0)) ∧
    mbiNext (virtualQueryEx []) none = (none, none) ∧
    mbiRun (virtualQueryEx []) none 5 = [] :=
  ⟨(mbiNext_transition (virtualQueryEx [4]) none).1 _ rfl,
   ((mbiNext_transition (virtualQueryEx []) none).2.1 rfl).1,
   ((mbiNext_transition (virtualQueryEx []) none).2.1 rfl).2 5⟩

/-- **C6.** Whenever acquisition succeeds for a process id, the returned
handle's `get_process_id` equals that id, and the accessor is the pure
projection of the stored field (it has no effect). -/
theorem tryFrom_preserves_pid (os : OpenOracle) (pid : Nat) (h : Handle)
    (hok : handleTryFrom os pid = Except.ok h) :
    h.get_process_id = pid ∧ h.get_process_id = h.process_id :=
  ⟨handleTryFrom_ok_pid os pid h hok, rfl⟩

/-- Witness for C6: under `osAlwaysOk`, acquiring pid `42` yields a handle
whose `get_process_id` is `42`. -/
theorem tryFrom_preserves_pid_witness :
    ({ raw := 5, process_id := 42 } : Handle).get_process_id = 42 :=
  (tryFrom_preserves_pid osAlwaysOk 42 { raw := 5, process_id := 42 } rfl).1

/-- **C7.** `Default::default` is `Handle::try_from(GetCurrentProcessId())
.unwrap()`: when it returns a handle, its `get_process_id` equals the
calling process's identifier; it returns exactly the handle the underlying
acquisition produced; and on acquisition failure it produces no failure
value — the `unwrap()` panic, modelled by `none`. -/
theorem default_current_process (os : OpenOracle) (pid : Nat) :
    (∀ h, handleDefault os pid = some h → h.get_process_id = pid) ∧
    (∀ h, handleTryFrom os pid = Except.ok h → handleDefault os pid = some h) ∧
    (∀ e, handleTryFrom os pid = Except.error e → handleDefault os pid = none) := by
  refine ⟨?_, ?_, ?_⟩
  · intro h hsome
    cases hy : handleTryFrom os pid with
    | ok h2 =>
      simp only [handleDefault, hy, Option.some.injEq] at hsome
      subst hsome
      exact handleTryFrom_ok_pid os pid _ hy
    | error e => simp [handleDefault, hy] at hsome
  · intro h hok
    simp [handleDefault, hok]
  · intro e herr
    simp [handleDefault, herr]

/-- Witness for C7: a successful acquisition for pid `42` flows through
`default`, and a failing acquisition makes `default` produce no value. -/
theorem default_current_process_witness :
    ({ raw := 5, process_id := 42 } : Handle).get_process_id = 42 ∧
    handleDefault osAlwaysErr 7 = none :=
  ⟨(default_current_process osAlwaysOk 42).1 { raw := 5, process_id := 42 } rfl,
   (default_current_process osAlwaysErr 7).2.2 ErrorKind.other rfl⟩

/-- **C8.** `SnapAll` equals the bitwise union of the other named flags
(`Inherit`, `SnapHeapList`, `SnapModule`, `SnapModule32`, `SnapProcess`,
`SnapThread`), its numeric value is `0x8000001F`, and the named base flags
are pairwise disjoint bits — a plain bit-set under bitwise combination. -/
theorem snapAll_union_of_flags :
    SnapAll = Inherit ||| SnapHeapList ||| SnapModule ||| SnapModule32 |||
      SnapProcess ||| SnapThread ∧
    SnapAll = 0x8000001F ∧
    List.Pairwise (fun a b => a &&& b = 0)
      [Inherit, SnapHeapList, SnapModule, SnapModule32, SnapProcess,
        SnapThread] :=
  ⟨rfl, by decide, by decide⟩

/-- **C9.** A failed "first module" query yields no element but leaves the
`is_first` flag set, so the next pull issues the "first module" query
again; and if that retried first query succeeds, the pull yields the module
— a failed first query is not a terminal state. -/
theorem moduleIter_failed_first_retries :
    moduleIterStep none true = (none, true) ∧
    moduleIterCall true = OsCall.first ∧
    (∀ m, moduleIterStep (some m) true = (some m, false)) :=
  ⟨rfl, rfl, fun _ => rfl⟩

/-- **C10.** When the region query reports no information, the pull leaves
`current_address` unchanged, so every subsequent pull re-issues the query
at exactly the same address — iterating the cursor update any number of
times from that point is the identity — and each such pull again yields no
element. -/
theorem mbiIter_end_cursor_unchanged (q : Option Nat → Option Mbi)
    (cur : Option Nat) (h : q cur = none) :
    mbiNext q cur = (none, cur) ∧
    (∀ k, (fun c => (mbiNext q c).2)^[k] cur = cur) := by
  have hstep : mbiNext q cur = (none, cur) := by simp [mbiNext, h]
  refine ⟨hstep, ?_⟩
  intro k
  induction k with
  | zero => rfl
  | succ n ihn =>
    rw [Function.iterate_succ_apply', ihn]
    simp [hstep]

/-- Witness for C10 under an always-failing query at cursor `some 3`. -/
theorem mbiIter_end_cursor_unchanged_witness :
    mbiNext (fun _ => none) (some 3) = (none, some 3) ∧
    (fun c => (mbiNext (fun _ => (none : Option Mbi)) c).2)^[2] (some 3) =
      some 3 :=
  ⟨(mbiIter_end_cursor_unchanged (fun _ => none) (some 3) rfl).1,
   (mbiIter_end_cursor_unchanged (fun _ => none) (some 3) rfl).2 2⟩

end Winmem
